import Mathlib

/-!
Shallow embedding of `src/controller/fragment-finders.js` (and its duplicated
variant `src/unnamed/part_000`) from the hls.js fragment-locator core.

JavaScript numbers are modelled as exact rationals (`ℚ`); the `NaN` value that
`Date.parse` produces on a malformed timestamp is modelled as `none` in
`Option ℚ`.  A JavaScript `TypeError` (property access on `undefined`) is
modelled with `Except String`.  JavaScript truthiness of a number is `≠ 0`,
of a string is `≠ ""`, and of an optional value is presence (with the numeric
test applied to the contained number where the source tests a number field).
-/

namespace FragmentFinders

/-- A media fragment, as read by `fragment-finders.js`.  `pdt = 0` models the
"no program-date-time" case (the source tests `fragPrevious.pdt` for
truthiness, and `0`/absent behave identically in every read of this field).
`deltaPTS` is genuinely optional in the source (`candidate.deltaPTS ? ... : 0`). -/
structure Fragment where
  sn : Int
  start : ℚ
  duration : ℚ
  pdt : ℚ
  endPdt : ℚ
  deltaPTS : Option ℚ
deriving DecidableEq, Repr

/-- Level metadata; only `programDateTime` is read by this module. -/
structure LevelDetails where
  programDateTime : Option String
deriving DecidableEq, Repr

/-- JavaScript truthiness of the optional `deltaPTS` number:
`candidate.deltaPTS ? candidate.deltaPTS : 0`. -/
def jsNumOrZero : Option ℚ → ℚ
  | none => 0
  | some d => if d ≠ 0 then d else 0

/-- `Math.min` on two (non-NaN) numbers. -/
def jsMin (a b : ℚ) : ℚ := if a ≤ b then a else b

theorem jsMin_eq_min (a b : ℚ) : jsMin a b = min a b := by
  simp [jsMin, min_def]

/-- `fragmentWithinToleranceTest(candidate, bufferEnd, maxFragLookUpTolerance)`
from `src/unnamed/part_000` lines 92–116 (identical to the closure in
`fragment-finders.js` lines 71–95): returns `1` ("after", buffer consumed the
candidate), `-1` ("before", candidate starts past the buffer end), `0` (match). -/
def fragmentWithinToleranceTest (candidate : Fragment)
    (bufferEnd maxFragLookUpTolerance : ℚ) : Int :=
  let candidateLookupTolerance :=
    jsMin maxFragLookUpTolerance (candidate.duration + jsNumOrZero candidate.deltaPTS)
  if candidate.start + candidate.duration - candidateLookupTolerance ≤ bufferEnd then 1
  else if candidate.start - candidateLookupTolerance > bufferEnd ∧ candidate.start ≠ 0 then -1
  else 0

example : fragmentWithinToleranceTest ⟨0, 0, 10, 0, 0, none⟩ 9 1 = 1 := by
  norm_num [fragmentWithinToleranceTest, jsNumOrZero, jsMin]

example : fragmentWithinToleranceTest ⟨0, 0, 10, 0, 0, none⟩ (9991/1000) (1/4) = 1 := by
  norm_num [fragmentWithinToleranceTest, jsNumOrZero, jsMin]

example : fragmentWithinToleranceTest ⟨1, 10, 10, 0, 0, none⟩ (9991/1000) (1/4) = 0 := by
  norm_num [fragmentWithinToleranceTest, jsNumOrZero, jsMin]

/-- The `else if (levelDetails.programDateTime)` branch of `calculateNextPDT`
(shared by both source variants): `bufferEnd*1000 + Date.parse(...) - 1000*start`,
else the initial `nextPdt = 0`.  An empty string is falsy in JavaScript. -/
def calculateNextPDTFromLevel (dateParse : String → Option ℚ)
    (start bufferEnd : ℚ) (levelDetails : LevelDetails) : Option ℚ :=
  match levelDetails.programDateTime with
  | some s =>
    if s ≠ "" then
      match dateParse s with
      | some t => some (bufferEnd * 1000 + t - 1000 * start)
      | none => none
    else some 0
  | none => some 0

/-- `calculateNextPDT(start, bufferEnd, fragPrevious, levelDetails)` from
`src/unnamed/part_000` lines 13–21.  The timestamp parser (`Date.parse`) is an
external interface (spec §6), passed here as the explicit argument
`dateParse`; it returns `none` (the NaN sentinel) on a malformed string.  The
result is `none` exactly when the arithmetic of the second branch involves
that NaN. -/
def calculateNextPDT (dateParse : String → Option ℚ) (start bufferEnd : ℚ)
    (fragPrevious : Option Fragment) (levelDetails : LevelDetails) : Option ℚ :=
  match fragPrevious with
  | some f =>
    if f.pdt ≠ 0 then some (f.pdt + f.duration * 1000)
    else calculateNextPDTFromLevel dateParse start bufferEnd levelDetails
  | none => calculateNextPDTFromLevel dateParse start bufferEnd levelDetails

/-- `calculateNextPdt` from `src/src/controller/fragment-finders.js` lines
13–21.  This variant guards on the `fragPrevious` *argument* but then reads
`this.fragPrevious`, the ambient field of the enclosing object, modelled here
as the explicit extra argument `thisFragPrevious`; reading `.pdt` off an
absent `this.fragPrevious` is a TypeError. -/
def calculateNextPdtJs (dateParse : String → Option ℚ) (start bufferEnd : ℚ)
    (fragPrevious : Option Fragment) (levelDetails : LevelDetails)
    (thisFragPrevious : Option Fragment) : Except String (Option ℚ) :=
  match fragPrevious with
  | some f =>
    if f.pdt ≠ 0 then
      match thisFragPrevious with
      | some g => .ok (some (g.pdt + g.duration * 1000))
      | none => .error "TypeError: this.fragPrevious is undefined"
    else .ok (calculateNextPDTFromLevel dateParse start bufferEnd levelDetails)
  | none => .ok (calculateNextPDTFromLevel dateParse start bufferEnd levelDetails)

/-- `findFragmentByPDT(fragments, PDTValue)` from `src/unnamed/part_000`
lines 29–54 (identical in `fragment-finders.js`).  `!fragments` is true only
for an absent array (an empty array is truthy in JavaScript); `!PDTValue` is
true for `0`.  On a non-absent empty array the source reads
`fragments[0].pdt`, a property access on `undefined`: a TypeError. -/
def findFragmentByPDT : Option (List Fragment) → ℚ → Except String (Option Fragment)
  | none, _ => .ok none
  | some frags, pdtValue =>
    if pdtValue = 0 then .ok none
    else
      match frags with
      | [] => .error "TypeError: fragments[0] is undefined"
      | firstSegment :: rest =>
        if pdtValue < firstSegment.pdt then .ok none
        else
          let lastSegment := (firstSegment :: rest).getLast (by simp)
          if lastSegment.endPdt ≤ pdtValue then .ok none
          else .ok ((firstSegment :: rest).find? fun frag => pdtValue < frag.endPdt)

/-- Modelled from the spec: `BinarySearch.search` (imported from
`../utils/binary-search`, not part of this repository snapshot) is the
ordered-search collaborator of spec §6 — given the sequence and the three-way
comparator it "receives either the matched element or none", assuming the
comparator is monotone (`1` = look later, `-1` = look earlier, `0` = match).
Modelled as the first element the comparator classifies `0`. -/
def BinarySearch.search (l : List Fragment) (cmp : Fragment → Int) : Option Fragment :=
  l.find? fun f => cmp f == 0

/-- JavaScript array indexing by a possibly negative or out-of-range integer
index: out-of-range access yields `undefined` (`none`), never a fault. -/
def listGetJs (l : List Fragment) (i : Int) : Option Fragment :=
  if i < 0 then none else l.get? i.toNat

/-- The body of `findFragmentBySN` once `fragNext` has been computed:
the `if (bufferEnd < end)` block of `src/unnamed/part_000` lines 70–82,
including the near-end zeroing of the tolerance.  `!fragmentWithinToleranceTest(...)`
is true only for the result `0` (`-1` is truthy in JavaScript). -/
def findFragmentBySNBody (fragNext : Option Fragment) (fragments : List Fragment)
    (bufferEnd endTime maxFragLookUpTolerance : ℚ) : Option Fragment :=
  if bufferEnd < endTime then
    let tol := if bufferEnd > endTime - maxFragLookUpTolerance then 0
               else maxFragLookUpTolerance
    match fragNext with
    | some fn =>
      if fragmentWithinToleranceTest fn bufferEnd tol = 0 then some fn
      else BinarySearch.search fragments fun c => fragmentWithinToleranceTest c bufferEnd tol
    | none => BinarySearch.search fragments fun c => fragmentWithinToleranceTest c bufferEnd tol
  else none

/-- `findFragmentBySN(fragPrevious, fragments, bufferEnd, end, maxFragLookUpTolerance)`
from `src/unnamed/part_000` lines 67–83.  `fragNext` is computed before the
`bufferEnd < end` test, so `fragments[0].sn` on an empty array is a TypeError
whenever `fragPrevious` is present, and an out-of-range
`fragments[fragPrevious.sn - fragments[0].sn + 1]` is `undefined` (no fault). -/
def findFragmentBySN (fragPrevious : Option Fragment) (fragments : List Fragment)
    (bufferEnd endTime maxFragLookUpTolerance : ℚ) : Except String (Option Fragment) :=
  match fragPrevious with
  | none => .ok (findFragmentBySNBody none fragments bufferEnd endTime maxFragLookUpTolerance)
  | some fp =>
    match fragments with
    | [] => .error "TypeError: fragments[0] is undefined"
    | f0 :: rest =>
      .ok (findFragmentBySNBody (listGetJs (f0 :: rest) (fp.sn - f0.sn + 1))
        (f0 :: rest) bufferEnd endTime maxFragLookUpTolerance)

/-- `findFragmentBySN` from `src/src/controller/fragment-finders.js` lines
66–110: identical logic, except that the lookup tolerance is not a parameter
but is read from ambient state (`this.hls.config.maxFragLookUpTolerance`),
modelled here as the explicit extra argument `hlsConfigMaxFragLookUpTolerance`. -/
def findFragmentBySNJs (hlsConfigMaxFragLookUpTolerance : ℚ)
    (fragPrevious : Option Fragment) (fragments : List Fragment)
    (bufferEnd endTime : ℚ) : Except String (Option Fragment) :=
  findFragmentBySN fragPrevious fragments bufferEnd endTime hlsConfigMaxFragLookUpTolerance

/-- Written from the words of the spec (§4.3) and of claim C2: the tolerance
predicate as the claim states it, with `tol = min(maxLookupTolerance,
candidate.duration + (candidate.deltaPTS or 0))`, to be compared with the
source-derived `fragmentWithinToleranceTest`. -/
def toleranceClassifySpec (candidate : Fragment)
    (bufferEnd maxLookupTolerance : ℚ) : Int :=
  let tol := min maxLookupTolerance (candidate.duration + candidate.deltaPTS.getD 0)
  if candidate.start + candidate.duration - tol ≤ bufferEnd then 1
  else if candidate.start - tol > bufferEnd ∧ candidate.start ≠ 0 then -1
  else 0

theorem jsNumOrZero_eq_getD (o : Option ℚ) : jsNumOrZero o = o.getD 0 := by
  cases o with
  | none => rfl
  | some d =>
    by_cases hd : d = 0 <;> simp [jsNumOrZero, hd]

/-- C2: for every candidate fragment, bufferEnd and maxLookupTolerance, the
tolerance predicate computes `tol = min(maxLookupTolerance, duration +
(deltaPTS or 0))` and returns After (1) when `start + duration - tol ≤
bufferEnd`, else Before (-1) when `start - tol > bufferEnd` and `start ≠ 0`,
else Match (0). -/
theorem claim_C2_tolerance_predicate_formula (candidate : Fragment)
    (bufferEnd maxLookupTolerance : ℚ) :
    fragmentWithinToleranceTest candidate bufferEnd maxLookupTolerance =
      toleranceClassifySpec candidate bufferEnd maxLookupTolerance := by
  unfold fragmentWithinToleranceTest toleranceClassifySpec
  rw [jsMin_eq_min, jsNumOrZero_eq_getD]

/-- C8: a candidate with `start = 0` is never classified Before (-1),
whatever the buffer end and the (possibly negative) tolerance. -/
theorem claim_C8_zero_start_never_before (candidate : Fragment)
    (bufferEnd maxFragLookUpTolerance : ℚ) (h : candidate.start = 0) :
    fragmentWithinToleranceTest candidate bufferEnd maxFragLookUpTolerance ≠ -1 := by
  simp only [fragmentWithinToleranceTest]
  split
  · decide
  · split
    · rename_i hcond
      exact absurd h hcond.2
    · decide

theorem claim_C8_witness :
    fragmentWithinToleranceTest ⟨0, 0, 10, 0, 0, none⟩ 100 (-5) ≠ -1 :=
  claim_C8_zero_start_never_before ⟨0, 0, 10, 0, 0, none⟩ 100 (-5) rfl

/-- C3 (code bug evidence): `calculateNextPdt` of `fragment-finders.js` guards
on the `fragPrevious` argument but reads `this.fragPrevious`.  With the
argument `{pdt: 5000, duration: 10}` and the ambient field
`{pdt: 9000, duration: 1}` it returns `10000`, while the claimed formula
`fragPrevious.pdt + fragPrevious.duration * 1000` gives `15000`. -/
theorem claim_C3_js_variant_reads_ambient_state :
    calculateNextPdtJs (fun _ => none) 0 0 (some ⟨0, 0, 10, 5000, 15000, none⟩)
        ⟨none⟩ (some ⟨0, 0, 1, 9000, 10000, none⟩) = .ok (some 10000) ∧
      (5000 : ℚ) + 10 * 1000 = 15000 ∧ ((10000 : ℚ) ≠ 15000) := by
  refine ⟨?_, by norm_num, by norm_num⟩
  norm_num [calculateNextPdtJs]

/-- C5 (counterexample): with `fragPrevious` absent and a present but
malformed `programDateTime`, `calculateNextPDT` returns the NaN sentinel
(`none`), which is not `0`, the value returned when `programDateTime` is
absent. -/
theorem claim_C5_counterexample :
    calculateNextPDT (fun _ => none) 0 5 none ⟨some "not-a-date"⟩ ≠ some 0 ∧
      calculateNextPDT (fun _ => none) 0 5 none ⟨some "not-a-date"⟩ = none ∧
      calculateNextPDT (fun _ => none) 0 5 none ⟨none⟩ = some 0 := by
  refine ⟨?_, rfl, rfl⟩
  simp [calculateNextPDT, calculateNextPDTFromLevel]

/-- C5 (amended): when `fragPrevious` is absent or has zero pdt and
`programDateTime` is a present, non-empty but unparseable string, the
malformed string propagates as the parser's NaN sentinel: the function
returns NaN (modelled `none`) — a falsy value treated downstream as "no
PDT", but not the `0` returned when `programDateTime` is absent. -/
theorem claim_C5_amended (dateParse : String → Option ℚ) (start bufferEnd : ℚ)
    (fragPrevious : Option Fragment) (levelDetails : LevelDetails) (s : String)
    (hfp : ∀ f, fragPrevious = some f → f.pdt = 0)
    (hs : levelDetails.programDateTime = some s) (hne : s ≠ "")
    (hbad : dateParse s = none) :
    calculateNextPDT dateParse start bufferEnd fragPrevious levelDetails = none := by
  have hlevel : calculateNextPDTFromLevel dateParse start bufferEnd levelDetails = none := by
    unfold calculateNextPDTFromLevel
    rw [hs]
    simp [hne, hbad]
  cases fragPrevious with
  | none => simpa [calculateNextPDT] using hlevel
  | some f =>
    have : f.pdt = 0 := hfp f rfl
    simpa [calculateNextPDT, this] using hlevel

theorem claim_C5_witness :
    calculateNextPDT (fun _ => none) 0 5 none ⟨some "garbage"⟩ = none :=
  claim_C5_amended (fun _ => none) 0 5 none ⟨some "garbage"⟩ "garbage"
    (fun f h => by cases h) rfl (by decide) rfl

/-- C6 (counterexample): on a present but *empty* fragment array and a
nonzero pdt value, `findFragmentByPDT` does not return none — it faults
(`fragments[0].pdt` is a property access on `undefined`). -/
theorem claim_C6_counterexample :
    findFragmentByPDT (some []) 1 = .error "TypeError: fragments[0] is undefined" ∧
      findFragmentByPDT (some []) 1 ≠ .ok none := by
  exact ⟨rfl, by simp [findFragmentByPDT]⟩

/-- C6 (amended): `findFragmentByPDT` returns none without fault when the
fragments array is absent, and when the pdt value is zero (for any fragments
argument); but on a present empty array with a nonzero pdt value it faults
with a TypeError instead of returning none. -/
theorem claim_C6_amended (pdtValue : ℚ) (fragments : Option (List Fragment)) :
    findFragmentByPDT none pdtValue = .ok none ∧
      findFragmentByPDT fragments 0 = .ok none ∧
      (pdtValue ≠ 0 →
        findFragmentByPDT (some []) pdtValue =
          .error "TypeError: fragments[0] is undefined") := by
  refine ⟨rfl, ?_, fun h => ?_⟩
  · cases fragments with
    | none => rfl
    | some l => simp [findFragmentByPDT]
  · simp [findFragmentByPDT, h]

theorem claim_C6_witness :
    findFragmentByPDT (some []) 1 = .error "TypeError: fragments[0] is undefined" :=
  (claim_C6_amended 1 none).2.2 (by norm_num)

/-- C9 (counterexample): the `fragment-finders.js` variant of
`findFragmentBySN` is not a function of its explicit arguments alone — two
calls with identical explicit arguments but different ambient
`this.hls.config.maxFragLookUpTolerance` (1 vs 0) return different fragments. -/
theorem claim_C9_counterexample :
    findFragmentBySNJs 1 (some ⟨0, 0, 10, 0, 0, none⟩)
        [⟨0, 0, 10, 0, 0, none⟩, ⟨1, 10, 10, 0, 0, none⟩] (19/2) 20 =
      .ok (some ⟨1, 10, 10, 0, 0, none⟩) ∧
    findFragmentBySNJs 0 (some ⟨0, 0, 10, 0, 0, none⟩)
        [⟨0, 0, 10, 0, 0, none⟩, ⟨1, 10, 10, 0, 0, none⟩] (19/2) 20 =
      .ok (some ⟨0, 0, 10, 0, 0, none⟩) ∧
    (⟨1, 10, 10, 0, 0, none⟩ : Fragment) ≠ ⟨0, 0, 10, 0, 0, none⟩ := by
  refine ⟨?_, ?_, by decide⟩ <;>
    norm_num [findFragmentBySNJs, findFragmentBySN, findFragmentBySNBody,
      listGetJs, BinarySearch.search, fragmentWithinToleranceTest, jsNumOrZero,
      jsMin, List.find?]

/-- C9 (amended): the `part_000` operations take every input explicitly and
(being modelled as plain functions of those arguments) are deterministic in
them; in the `fragment-finders.js` variants the only additional inputs are
the ambient `this.hls.config.maxFragLookUpTolerance` (for `findFragmentBySN`)
and `this.fragPrevious` (for `calculateNextPdt`): with the ambient previous
fragment equal to the argument, the js projector agrees with the explicit
`part_000` projector, and the js SN locator is the explicit locator applied
to the ambient tolerance. -/
theorem claim_C9_amended (cfg : ℚ) (fragPrevious : Option Fragment)
    (fragments : List Fragment) (bufferEnd endTime : ℚ)
    (dateParse : String → Option ℚ) (start bufferEnd' : ℚ)
    (fragPrevious' : Option Fragment) (levelDetails : LevelDetails) :
    findFragmentBySNJs cfg fragPrevious fragments bufferEnd endTime =
        findFragmentBySN fragPrevious fragments bufferEnd endTime cfg ∧
      calculateNextPdtJs dateParse start bufferEnd' fragPrevious' levelDetails
          fragPrevious' =
        .ok (calculateNextPDT dateParse start bufferEnd' fragPrevious' levelDetails) := by
  refine ⟨rfl, ?_⟩
  cases fragPrevious' with
  | none => rfl
  | some f =>
    by_cases h : f.pdt = 0 <;> simp [calculateNextPdtJs, calculateNextPDT, h]

/-- C4 (counterexample): `!fragmentWithinToleranceTest(fragNext, ...)` is
true only for the result `0` (`-1` is truthy in JavaScript).  Here the
sequential candidate `fragNext` exists and is classified Before (-1) — not
the After code — yet `findFragmentBySN` does not return it directly: the
full ordered search runs and yields the earlier fragment. -/
theorem claim_C4_counterexample :
    listGetJs [⟨0, 0, 5, 0, 0, none⟩, ⟨1, 100, 5, 0, 0, none⟩]
        ((0 : Int) - 0 + 1) = some ⟨1, 100, 5, 0, 0, none⟩ ∧
      fragmentWithinToleranceTest ⟨1, 100, 5, 0, 0, none⟩ 1 (1/4) = -1 ∧
      findFragmentBySN (some ⟨0, 0, 5, 0, 0, none⟩)
          [⟨0, 0, 5, 0, 0, none⟩, ⟨1, 100, 5, 0, 0, none⟩] 1 200 (1/4) =
        .ok (some ⟨0, 0, 5, 0, 0, none⟩) ∧
      ((some (⟨0, 0, 5, 0, 0, none⟩ : Fragment) : Option Fragment) ≠
        some ⟨1, 100, 5, 0, 0, none⟩) := by
  refine ⟨by norm_num [listGetJs], ?_, ?_, by decide⟩ <;>
    norm_num [findFragmentBySN, findFragmentBySNBody, listGetJs,
      BinarySearch.search, fragmentWithinToleranceTest, jsNumOrZero, jsMin,
      List.find?]

/-- C4 (amended): when `bufferEnd < end` and the sequential candidate
`fragNext` exists, it is returned directly exactly when the tolerance
predicate (with the near-end-adjusted tolerance) classifies it Match (0);
when the predicate returns After (1) *or Before (-1)*, the full ordered
search over the sequence runs instead. -/
theorem claim_C4_amended (fp f0 fn : Fragment) (rest : List Fragment)
    (bufferEnd endTime maxTol : ℚ)
    (hfn : listGetJs (f0 :: rest) (fp.sn - f0.sn + 1) = some fn)
    (hlt : bufferEnd < endTime) :
    (fragmentWithinToleranceTest fn bufferEnd
          (if bufferEnd > endTime - maxTol then 0 else maxTol) = 0 →
        findFragmentBySN (some fp) (f0 :: rest) bufferEnd endTime maxTol =
          .ok (some fn)) ∧
      (fragmentWithinToleranceTest fn bufferEnd
          (if bufferEnd > endTime - maxTol then 0 else maxTol) ≠ 0 →
        findFragmentBySN (some fp) (f0 :: rest) bufferEnd endTime maxTol =
          .ok (BinarySearch.search (f0 :: rest) fun c =>
            fragmentWithinToleranceTest c bufferEnd
              (if bufferEnd > endTime - maxTol then 0 else maxTol))) := by
  constructor <;> intro h <;>
    simp [findFragmentBySN, hfn, findFragmentBySNBody, hlt, h]

/-- Witness for C4 (amended), on the spec §8 example: the buffer ends at
9.991 inside fragment 0, the next fragment is classified Match, and the
locator returns it directly. -/
theorem claim_C4_witness :
    findFragmentBySN (some ⟨0, 0, 10, 0, 0, none⟩)
        [⟨0, 0, 10, 0, 0, none⟩, ⟨1, 10, 10, 0, 0, none⟩] (9991/1000) 20 (1/4) =
      .ok (some ⟨1, 10, 10, 0, 0, none⟩) :=
  (claim_C4_amended ⟨0, 0, 10, 0, 0, none⟩ ⟨0, 0, 10, 0, 0, none⟩
      ⟨1, 10, 10, 0, 0, none⟩ [⟨1, 10, 10, 0, 0, none⟩] (9991/1000) 20 (1/4)
      (by norm_num [listGetJs]) (by norm_num)).1
    (by norm_num [fragmentWithinToleranceTest, jsNumOrZero, jsMin])

/-- C10: in `findFragmentBySN` on a non-empty sequence, when the sequential
candidate's computed index `fragPrevious.sn - fragments[0].sn + 1` is out of
range (negative or past the end), the array access yields the absent value
(no fault), the call returns without fault, and — whenever there is anything
left to load — the locator falls through to the full ordered search. -/
theorem claim_C10_out_of_range_index_total (fp f0 : Fragment)
    (rest : List Fragment) (bufferEnd endTime maxTol : ℚ)
    (hout : fp.sn - f0.sn + 1 < 0 ∨
      (f0 :: rest).length ≤ (fp.sn - f0.sn + 1).toNat) :
    listGetJs (f0 :: rest) (fp.sn - f0.sn + 1) = none ∧
      findFragmentBySN (some fp) (f0 :: rest) bufferEnd endTime maxTol =
        .ok (findFragmentBySNBody none (f0 :: rest) bufferEnd endTime maxTol) ∧
      (bufferEnd < endTime →
        findFragmentBySNBody none (f0 :: rest) bufferEnd endTime maxTol =
          BinarySearch.search (f0 :: rest) fun c =>
            fragmentWithinToleranceTest c bufferEnd
              (if bufferEnd > endTime - maxTol then 0 else maxTol)) := by
  have hget : listGetJs (f0 :: rest) (fp.sn - f0.sn + 1) = none := by
    by_cases hi : fp.sn - f0.sn + 1 < 0
    · simp [listGetJs, hi]
    · rcases hout with h | h
      · exact absurd h hi
      · simp only [listGetJs, if_neg hi]
        exact List.get?_eq_none.mpr h
  refine ⟨hget, ?_, fun h => ?_⟩
  · simp [findFragmentBySN, hget]
  · simp [findFragmentBySNBody, h]

/-- Witness for C10: the previous fragment is the last of a two-fragment
sequence, so the computed index 2 is out of range. -/
theorem claim_C10_witness :
    findFragmentBySN (some ⟨1, 10, 10, 0, 0, none⟩)
        [⟨0, 0, 10, 0, 0, none⟩, ⟨1, 10, 10, 0, 0, none⟩] 5 20 (1/4) =
      .ok (findFragmentBySNBody none
        [⟨0, 0, 10, 0, 0, none⟩, ⟨1, 10, 10, 0, 0, none⟩] 5 20 (1/4)) :=
  (claim_C10_out_of_range_index_total ⟨1, 10, 10, 0, 0, none⟩
      ⟨0, 0, 10, 0, 0, none⟩ [⟨1, 10, 10, 0, 0, none⟩] 5 20 (1/4)
      (Or.inr (by decide))).2.1

/-- Scan-order rank of a classification code: After (1) sorts first, then
Match (0), then Before (-1) — the order in which a monotone comparator must
produce them along the sequence. -/
def classRank (c : Int) : ℕ :=
  if c = 1 then 0 else if c = 0 then 1 else 2

/-- C7 (counterexample): with a fixed `bufferEnd`, two fragments ordered (and
even contiguous) by start — `[10,11)` of duration 1 and `[11,21)` of
duration 10 — classify as Before (-1) then Match (0): a Before entry precedes
a Match entry, because the effective tolerance is capped per candidate by its
own duration.  The claimed monotone order (all After, then all Match, then
all Before) is violated. -/
theorem claim_C7_counterexample :
    (Fragment.start ⟨0, 10, 1, 0, 0, none⟩ ≤ Fragment.start ⟨1, 11, 10, 0, 0, none⟩) ∧
      fragmentWithinToleranceTest ⟨0, 10, 1, 0, 0, none⟩ 8 3 = -1 ∧
      fragmentWithinToleranceTest ⟨1, 11, 10, 0, 0, none⟩ 8 3 = 0 ∧
      classRank (fragmentWithinToleranceTest ⟨0, 10, 1, 0, 0, none⟩ 8 3) >
        classRank (fragmentWithinToleranceTest ⟨1, 11, 10, 0, 0, none⟩ 8 3) := by
  refine ⟨by norm_num, ?_, ?_, ?_⟩ <;>
    norm_num [fragmentWithinToleranceTest, jsNumOrZero, jsMin, classRank]

theorem toleranceRank_mono_of_uniform (f g : Fragment) (bufferEnd maxTol d : ℚ)
    (hfd : f.duration = d) (hgd : g.duration = d)
    (hfδ : f.deltaPTS = none) (hgδ : g.deltaPTS = none)
    (hf0 : 0 ≤ f.start) (hfg : f.start ≤ g.start) :
    classRank (fragmentWithinToleranceTest f bufferEnd maxTol) ≤
      classRank (fragmentWithinToleranceTest g bufferEnd maxTol) := by
  simp only [fragmentWithinToleranceTest, jsNumOrZero, hfd, hgd, hfδ, hgδ,
    add_zero]
  by_cases hAf : f.start + d - jsMin maxTol d ≤ bufferEnd
  · rw [if_pos hAf]
    exact le_trans (by norm_num [classRank]) (Nat.zero_le _)
  · by_cases hAg : g.start + d - jsMin maxTol d ≤ bufferEnd
    · exact absurd (by linarith) hAf
    · rw [if_neg hAf, if_neg hAg]
      by_cases hBf : f.start - jsMin maxTol d > bufferEnd ∧ f.start ≠ 0
      · have hfpos : 0 < f.start := lt_of_le_of_ne hf0 (Ne.symm hBf.2)
        have hBg : g.start - jsMin maxTol d > bufferEnd ∧ g.start ≠ 0 :=
          ⟨by linarith [hBf.1], ne_of_gt (lt_of_lt_of_le hfpos hfg)⟩
        rw [if_pos hBf, if_pos hBg]
      · rw [if_neg hBf]
        by_cases hBg : g.start - jsMin maxTol d > bufferEnd ∧ g.start ≠ 0
        · rw [if_pos hBg]
          norm_num [classRank]
        · rw [if_neg hBg]

/-- C7 (amended): for a fixed `bufferEnd` and `maxLookupTolerance` and a
sequence ordered by non-decreasing, non-negative start whose fragments all
share one duration and carry no deltaPTS (so the per-candidate
tolerance cap is uniform), the classifications scanned in index order are
monotone: every After entry precedes every Match entry, which precedes every
Before entry.  (With per-candidate durations or deltaPTS the cap varies and
the order can break, as the counterexample shows.) -/
theorem claim_C7_amended (l : List Fragment) (bufferEnd maxTol d : ℚ)
    (hdur : ∀ f ∈ l, f.duration = d)
    (hδ : ∀ f ∈ l, f.deltaPTS = none) (hpos : ∀ f ∈ l, 0 ≤ f.start)
    (hord : l.Pairwise fun f g => f.start ≤ g.start) :
    l.Pairwise fun f g =>
      classRank (fragmentWithinToleranceTest f bufferEnd maxTol) ≤
        classRank (fragmentWithinToleranceTest g bufferEnd maxTol) := by
  refine List.Pairwise.imp_of_mem (fun ha hb hR => ?_) hord
  exact toleranceRank_mono_of_uniform _ _ bufferEnd maxTol d
    (hdur _ ha) (hdur _ hb) (hδ _ ha) (hδ _ hb) (hpos _ ha) hR

/-- Witness for C7 (amended): two uniform-duration fragments. -/
theorem claim_C7_witness :
    ([⟨0, 0, 5, 0, 0, none⟩, ⟨1, 6, 5, 0, 0, none⟩] : List Fragment).Pairwise
      (fun f g =>
        classRank (fragmentWithinToleranceTest f 3 1) ≤
          classRank (fragmentWithinToleranceTest g 3 1)) :=
  claim_C7_amended [⟨0, 0, 5, 0, 0, none⟩, ⟨1, 6, 5, 0, 0, none⟩] 3 1 5
    (by decide) (by decide) (by decide) (by decide)

/-- Normal form of `findFragmentByPDT` on a present, non-empty array: the
three early-exit guards followed by the forward scan for the first fragment
whose `endPdt` strictly exceeds the target. -/
theorem findFragmentByPDT_cons (f0 : Fragment) (rest : List Fragment) (v : ℚ) :
    findFragmentByPDT (some (f0 :: rest)) v =
      if v = 0 then .ok none
      else if v < f0.pdt then .ok none
      else if ((f0 :: rest).getLast (by simp)).endPdt ≤ v then .ok none
      else .ok ((f0 :: rest).find? fun frag => v < frag.endPdt) := rfl

/-- `List.find?` returns the element of lowest index satisfying the
predicate, together with that minimality. -/
theorem find?_first_index {p : Fragment → Bool} {l : List Fragment}
    {x : Fragment} (hx : x ∈ l) (hpx : p x = true) :
    ∃ i, ∃ h : i < l.length, l.find? p = some (l.get ⟨i, h⟩) ∧
      p (l.get ⟨i, h⟩) = true ∧
      ∀ j (hj : j < i), p (l.get ⟨j, hj.trans h⟩) = false := by
  induction l with
  | nil => cases hx
  | cons a t ih =>
    cases hpa : p a with
    | true =>
      refine ⟨0, by simp, ?_, hpa, fun j hj => absurd hj (Nat.not_lt_zero j)⟩
      rw [List.find?_cons_of_pos _ hpa]
      rfl
    | false =>
      have hx' : x ∈ t := by
        rcases List.mem_cons.mp hx with h | h
        · rw [h, hpa] at hpx; cases hpx
        · exact h
      obtain ⟨i, h, hfind, hpi, hmin⟩ := ih hx'
      refine ⟨i + 1, Nat.succ_lt_succ h, ?_, hpi, ?_⟩
      · rw [List.find?_cons_of_neg _ (by simp [hpa]), hfind]
        rfl
      · intro j hj
        cases j with
        | zero => exact hpa
        | succ j' => exact hmin j' (Nat.lt_of_succ_lt_succ hj)

/-- Conversely, if the predicate fails below index `k` and holds at `k`, then
`List.find?` returns the element at `k`. -/
theorem find?_eq_of_first {l : List Fragment} {p : Fragment → Bool} (k : ℕ)
    (hk : k < l.length) (hpk : p (l.get ⟨k, hk⟩) = true)
    (hbefore : ∀ j (hj : j < k), p (l.get ⟨j, hj.trans hk⟩) = false) :
    l.find? p = some (l.get ⟨k, hk⟩) := by
  induction l generalizing k with
  | nil => exact absurd hk (Nat.not_lt_zero k)
  | cons a t ih =>
    cases k with
    | zero => exact List.find?_cons_of_pos _ hpk
    | succ k' =>
      have hpa : p a = false := hbefore 0 (Nat.succ_pos k')
      rw [List.find?_cons_of_neg _ (by simp [hpa])]
      exact ih k' (Nat.lt_of_succ_lt_succ hk) hpk
        (fun j hj => hbefore (j + 1) (Nat.succ_lt_succ hj))

/-- C1 (amended): on a non-empty sequence, `findFragmentByPDT` rejects a
target below the first fragment's pdt and a target at or above the last
fragment's endPdt; for a *nonzero* in-range target it returns the fragment
of lowest index whose endPdt strictly exceeds the target; and — when the
endPdt values are strictly increasing — a nonzero target equal to
`seq[i].endPdt` yields `seq[i+1]`, never `seq[i]`.  (The original claim
fails only at the target `0`, which the source treats as "no target".) -/
theorem claim_C1_amended (f0 : Fragment) (rest : List Fragment) (pdtValue : ℚ) :
    (pdtValue < f0.pdt →
      findFragmentByPDT (some (f0 :: rest)) pdtValue = .ok none) ∧
    (((f0 :: rest).getLast (by simp)).endPdt ≤ pdtValue →
      findFragmentByPDT (some (f0 :: rest)) pdtValue = .ok none) ∧
    (pdtValue ≠ 0 → f0.pdt ≤ pdtValue →
      pdtValue < ((f0 :: rest).getLast (by simp)).endPdt →
      ∃ i, ∃ h : i < (f0 :: rest).length,
        findFragmentByPDT (some (f0 :: rest)) pdtValue =
          .ok (some ((f0 :: rest).get ⟨i, h⟩)) ∧
        pdtValue < ((f0 :: rest).get ⟨i, h⟩).endPdt ∧
        ∀ j (hj : j < i), ((f0 :: rest).get ⟨j, hj.trans h⟩).endPdt ≤ pdtValue) ∧
    ((f0 :: rest).Pairwise (fun f g => f.endPdt < g.endPdt) →
      pdtValue ≠ 0 → f0.pdt ≤ pdtValue →
      pdtValue < ((f0 :: rest).getLast (by simp)).endPdt →
      ∀ i (hi : i < (f0 :: rest).length),
        pdtValue = ((f0 :: rest).get ⟨i, hi⟩).endPdt →
        ∃ h : i + 1 < (f0 :: rest).length,
          findFragmentByPDT (some (f0 :: rest)) pdtValue =
            .ok (some ((f0 :: rest).get ⟨i + 1, h⟩))) := by
  refine ⟨fun hlt => ?_, fun hge => ?_, fun h0 hlow hhigh => ?_,
    fun hmono h0 hlow hhigh i hi heq => ?_⟩
  · rw [findFragmentByPDT_cons]
    by_cases h0 : pdtValue = 0 <;> simp [h0, hlt]
  · rw [findFragmentByPDT_cons]
    by_cases h0 : pdtValue = 0 <;> by_cases h1 : pdtValue < f0.pdt <;>
      simp [h0, h1, hge]
  · rw [findFragmentByPDT_cons,
      if_neg h0, if_neg (not_lt.mpr hlow), if_neg (not_le.mpr hhigh)]
    obtain ⟨i, h, hfind, hpi, hmin⟩ :=
      find?_first_index (p := fun frag => decide (pdtValue < frag.endPdt))
        (List.getLast_mem (l := f0 :: rest) (by simp)) (by simpa using hhigh)
    refine ⟨i, h, by rw [hfind], by simpa using hpi, fun j hj => ?_⟩
    simpa using hmin j hj
  · have hmono' := List.pairwise_iff_get.mp hmono
    have hsucc : i + 1 < (f0 :: rest).length := by
      rcases Nat.lt_or_ge (i + 1) (f0 :: rest).length with h | h
      · exact h
      · exfalso
        have hieq : i = (f0 :: rest).length - 1 := by
          simp only [List.length_cons] at hi h ⊢
          omega
        have : ((f0 :: rest).getLast (by simp)) = (f0 :: rest).get ⟨i, hi⟩ := by
          rw [List.getLast_eq_get]
          congr 1
          exact (Fin.mk_eq_mk.mpr hieq.symm)
        rw [this] at hhigh
        rw [← heq] at hhigh
        exact lt_irrefl _ hhigh
    refine ⟨hsucc, ?_⟩
    rw [findFragmentByPDT_cons,
      if_neg h0, if_neg (not_lt.mpr hlow), if_neg (not_le.mpr hhigh)]
    have hfind := find?_eq_of_first (l := f0 :: rest)
      (p := fun frag => decide (pdtValue < frag.endPdt)) (i + 1) hsucc
      (by
        have : ((f0 :: rest).get ⟨i, hi⟩).endPdt <
            ((f0 :: rest).get ⟨i + 1, hsucc⟩).endPdt :=
          hmono' ⟨i, hi⟩ ⟨i + 1, hsucc⟩ (by simp)
        simpa using heq ▸ this)
      (by
        intro j hj
        have hji : j ≤ i := Nat.lt_succ_iff.mp hj
        rcases Nat.lt_or_ge j i with hlt | hge'
        · have : ((f0 :: rest).get ⟨j, hj.trans hsucc⟩).endPdt <
              ((f0 :: rest).get ⟨i, hi⟩).endPdt :=
            hmono' ⟨j, hj.trans hsucc⟩ ⟨i, hi⟩ (by simpa using hlt)
          simp only [decide_eq_false_iff_not, not_lt]
          rw [heq]
          exact le_of_lt this
        · have hji' : j = i := le_antisymm hji hge'
          simp only [decide_eq_false_iff_not, not_lt]
          subst hji'
          rw [heq])
    rw [hfind]

/-- C1 (counterexample): a single fragment whose `pdt` is `0` (the source's
"no PDT" sentinel also used as an ordering key).  The target `0` is in range
— `seq[0].pdt ≤ 0 < seq[last].endPdt` — yet `findFragmentByPDT` returns none
instead of the first fragment with `endPdt > 0`, because `!PDTValue` treats
the target `0` as absent. -/
theorem claim_C1_counterexample :
    (Fragment.pdt ⟨0, 0, 10, 0, 10000, none⟩ ≤ 0 ∧
      (0 : ℚ) < Fragment.endPdt ⟨0, 0, 10, 0, 10000, none⟩) ∧
    findFragmentByPDT (some [⟨0, 0, 10, 0, 10000, none⟩]) 0 = .ok none ∧
    findFragmentByPDT (some [⟨0, 0, 10, 0, 10000, none⟩]) 0 ≠
      .ok (some ⟨0, 0, 10, 0, 10000, none⟩) := by
  refine ⟨⟨by norm_num, by norm_num⟩, rfl, by simp [findFragmentByPDT]⟩

/-- Witness for C1 (amended): target exactly at `seq[0].endPdt` of a
two-fragment sequence returns `seq[1]`. -/
theorem claim_C1_witness :
    ∃ h : 0 + 1 < ([⟨0, 1000, 1, 1000, 2000, none⟩,
        ⟨1, 1001, 1, 2000, 3000, none⟩] : List Fragment).length,
      findFragmentByPDT (some [⟨0, 1000, 1, 1000, 2000, none⟩,
          ⟨1, 1001, 1, 2000, 3000, none⟩]) 2000 =
        .ok (some ([⟨0, 1000, 1, 1000, 2000, none⟩,
          ⟨1, 1001, 1, 2000, 3000, none⟩].get ⟨0 + 1, h⟩)) :=
  (claim_C1_amended ⟨0, 1000, 1, 1000, 2000, none⟩
      [⟨1, 1001, 1, 2000, 3000, none⟩] 2000).2.2.2
    (by decide) (by norm_num) (by norm_num) (by decide) 0 (by decide) (by decide)

end FragmentFinders
